import Mathlib

/-!
Shallow embedding of the nofx trading-agent core: the decision validator,
the tolerant LLM-response parser, the market-data liquidity filter, the
LLM retry loop, and the outside-bar detector, together with theorems
settling the frozen claims about them.

Modelling conventions:
* Go `float64` arithmetic is modelled as exact rational arithmetic (`ℚ`).
* Go strings are modelled as `List Char`; Go byte offsets are modelled as
  character offsets (the two agree on the ASCII inputs exercised here).
* Fallible Go functions returning `(T, error)` are modelled as
  `Except String T`; Go error messages carrying `fmt.Sprintf`-interpolated
  values are modelled by their constant message text.
-/

namespace Nofx

/-- `Decision` (src/unnamed/part_007): the AI trade decision record.
Field defaults are the Go zero values, which is what `encoding/json`
starts from when unmarshalling into the struct. -/
structure Decision where
  symbol : String := ""
  action : String := ""
  leverage : Int := 0
  positionSizeUSD : ℚ := 0
  stopLoss : ℚ := 0
  takeProfit : ℚ := 0
  confidence : Int := 0
  riskUSD : ℚ := 0
  reasoning : String := ""
deriving DecidableEq, Repr

/-- The Go zero value of `Decision`. -/
def Decision.zero : Decision := {}

/-- `validActions` (src/unnamed/part_007, `validateDecision`): the set of
recognized actions, modelled as a list (the Go code uses a
`map[string]bool` literal). -/
def validActions : List String :=
  ["open_long", "open_short", "close_long", "close_short", "hold", "wait"]

/-- `maxLeverage` assignment inside `validateDecision`
(src/unnamed/part_007): BTC and ETH use the configured BTC/ETH leverage
cap, every other symbol the altcoin cap. -/
def maxLeverageFor (symbol : String) (btcEthLeverage altcoinLeverage : Int) : Int :=
  if symbol = "BTCUSDT" ∨ symbol = "ETHUSDT" then btcEthLeverage else altcoinLeverage

/-- `maxPositionValue` assignment inside `validateDecision`
(src/unnamed/part_007): 10 times account equity for BTC/ETH, 1.5 times
for every other symbol. -/
def maxPositionValueFor (symbol : String) (accountEquity : ℚ) : ℚ :=
  if symbol = "BTCUSDT" ∨ symbol = "ETHUSDT" then accountEquity * 10 else accountEquity * 1.5

/-- `entryPrice` computation inside `validateDecision`
(src/unnamed/part_007): the 20%-into-the-range entry approximation.
For `open_long`, entry is assumed at 20% of the way from stop loss to
take profit; for `open_short` (the `else` branch of the source), 20% of
the way down from stop loss toward take profit. -/
def entryPriceApprox (d : Decision) : ℚ :=
  if d.action = "open_long" then
    d.stopLoss + (d.takeProfit - d.stopLoss) * 0.2
  else
    d.stopLoss - (d.stopLoss - d.takeProfit) * 0.2

/-- `riskPercent` computation inside `validateDecision`
(src/unnamed/part_007). -/
def riskPercentOf (d : Decision) : ℚ :=
  if d.action = "open_long" then
    (entryPriceApprox d - d.stopLoss) / entryPriceApprox d * 100
  else
    (d.stopLoss - entryPriceApprox d) / entryPriceApprox d * 100

/-- `rewardPercent` computation inside `validateDecision`
(src/unnamed/part_007). -/
def rewardPercentOf (d : Decision) : ℚ :=
  if d.action = "open_long" then
    (d.takeProfit - entryPriceApprox d) / entryPriceApprox d * 100
  else
    (entryPriceApprox d - d.takeProfit) / entryPriceApprox d * 100

/-- `riskRewardRatio` computation inside `validateDecision`
(src/unnamed/part_007): the ratio defaults to 0 (its Go zero value) when
`riskPercent` is not positive. -/
def riskRewardRatio (d : Decision) : ℚ :=
  if riskPercentOf d > 0 then rewardPercentOf d / riskPercentOf d else 0

/-- The final risk/reward gate of `validateDecision`
(src/unnamed/part_007): reject when the computed ratio is below 3.0. -/
def validateRiskReward (d : Decision) : Except String Unit :=
  if riskRewardRatio d < 3 then .error "风险回报比过低，必须≥3.0:1" else .ok ()

/-- The stop-loss/take-profit block of `validateDecision`
(src/unnamed/part_007): positivity of both prices, the directional
bracket check (`open_long` needs SL < TP, `open_short` needs SL > TP),
then the risk/reward gate. Within this block the action is one of
`open_long`/`open_short`; the source's `else` branch is `open_short`. -/
def validateBracketAndRR (d : Decision) : Except String Unit :=
  if d.stopLoss ≤ 0 ∨ d.takeProfit ≤ 0 then
    .error "止损和止盈必须大于0"
  else if d.action = "open_long" then
    if d.stopLoss ≥ d.takeProfit then
      .error "做多时止损价必须小于止盈价"
    else validateRiskReward d
  else
    if d.stopLoss ≤ d.takeProfit then
      .error "做空时止损价必须大于止盈价"
    else validateRiskReward d

/-- `validateDecision` (src/unnamed/part_007): validity of a single
decision. Non-opening actions only need a recognized `action`; opening
actions additionally pass the leverage cap, position-size bounds,
bracket-direction and risk/reward checks. -/
def validateDecision (d : Decision) (accountEquity : ℚ)
    (btcEthLeverage altcoinLeverage : Int)
    (minPositionSizeUSD maxPositionSizeUSD : ℚ) : Except String Unit :=
  if d.action ∉ validActions then
    .error "无效的action"
  else if d.action = "open_long" ∨ d.action = "open_short" then
    if d.leverage ≤ 0 ∨ maxLeverageFor d.symbol btcEthLeverage altcoinLeverage < d.leverage then
      .error "杠杆必须在1-上限之间"
    else if d.positionSizeUSD ≤ 0 then
      .error "仓位大小必须大于0"
    else if 0 < minPositionSizeUSD ∧ d.positionSizeUSD < minPositionSizeUSD then
      .error "仓位大小低于最小限制"
    else if 0 < maxPositionSizeUSD then
      if maxPositionSizeUSD < d.positionSizeUSD then
        .error "仓位大小超过最大限制"
      else validateBracketAndRR d
    else
      if maxPositionValueFor d.symbol accountEquity
          + maxPositionValueFor d.symbol accountEquity * 0.01 < d.positionSizeUSD then
        .error "单币种仓位价值超过账户净值倍数限制"
      else validateBracketAndRR d
  else
    .ok ()

/-- `validateDecisions` (src/unnamed/part_007): validate a batch in
order; the first failing decision aborts the whole batch with an error
naming its (1-based) index. `i` is the index of the first element of
`decisions` in the enclosing batch. -/
def validateDecisionsFrom (i : Nat) (decisions : List Decision) (accountEquity : ℚ)
    (btcEthLeverage altcoinLeverage : Int)
    (minPositionSizeUSD maxPositionSizeUSD : ℚ) : Except String Unit :=
  match decisions with
  | [] => .ok ()
  | d :: rest =>
    match validateDecision d accountEquity btcEthLeverage altcoinLeverage
        minPositionSizeUSD maxPositionSizeUSD with
    | .error e => .error ("决策 #" ++ toString (i + 1) ++ " 验证失败: " ++ e)
    | .ok () => validateDecisionsFrom (i + 1) rest accountEquity
        btcEthLeverage altcoinLeverage minPositionSizeUSD maxPositionSizeUSD

/-- `validateDecisions` (src/unnamed/part_007) starting at index 0. -/
def validateDecisions (decisions : List Decision) (accountEquity : ℚ)
    (btcEthLeverage altcoinLeverage : Int)
    (minPositionSizeUSD maxPositionSizeUSD : ℚ) : Except String Unit :=
  validateDecisionsFrom 0 decisions accountEquity btcEthLeverage altcoinLeverage
    minPositionSizeUSD maxPositionSizeUSD

/-! ### String utilities

Go strings are modelled as `List Char`, indices as character offsets. -/

/-- `unicode.IsSpace` as used by `strings.TrimSpace`, restricted to the
Latin-1 range (TAB, LF, VT, FF, CR, SP, NEL, NBSP); the inputs in this
development are ASCII. -/
def goIsSpace (c : Char) : Bool :=
  [9, 10, 11, 12, 13, 32, 133, 160].contains c.toNat

/-- `strings.TrimSpace`: drop leading and trailing whitespace. -/
def trimSpace (s : List Char) : List Char :=
  ((s.dropWhile goIsSpace).reverse.dropWhile goIsSpace).reverse

/-- `strings.Index(s[start:], string(c)) + start` for a one-character
needle: the absolute index of the first occurrence of `c` at or after
`start`, if any. -/
def indexOfCharFrom (s : List Char) (c : Char) (start : Nat) : Option Nat :=
  match (s.drop start).findIdx? (· == c) with
  | none => none
  | some i => some (start + i)

/-- `strings.LastIndex(s, string(c))`: the index of the last occurrence
of `c` in `s`, if any. -/
def lastIndexOfChar (s : List Char) (c : Char) : Option Nat :=
  match s.reverse.findIdx? (· == c) with
  | none => none
  | some i => some (s.length - 1 - i)

/-- Inner scan of `findMatchingBracket` (src/unnamed/part_007): walk the
suffix tracking bracket depth; report the absolute index at which the
depth returns to zero. -/
def bracketScan : List Char → Int → Nat → Option Nat
  | [], _, _ => none
  | c :: rest, depth, i =>
    if c = '[' then bracketScan rest (depth + 1) (i + 1)
    else if c = ']' then
      if depth - 1 = 0 then some i else bracketScan rest (depth - 1) (i + 1)
    else bracketScan rest depth (i + 1)

/-- `findMatchingBracket` (src/unnamed/part_007): starting from an
opening `[` at index `start`, find the index of the matching `]`. -/
def findMatchingBracket (s : List Char) (start : Nat) : Option Nat :=
  if s.length ≤ start ∨ s.getD start ' ' ≠ '[' then none
  else bracketScan (s.drop start) 0 start

/-- `strings.Contains`: `needle` occurs as a contiguous run in `s`. -/
def containsSub (s needle : List Char) : Bool :=
  (List.range (s.length + 1)).any fun i => needle.isPrefixOf (s.drop i)

/-- `fixMissingQuotes` (src/unnamed/part_007): replace the four smart
quotation characters by their ASCII counterparts. Each needle of the
source's `strings.ReplaceAll` calls is a single character, so the
rewrite is a character map. -/
def fixMissingQuotes (s : List Char) : List Char :=
  s.map fun c =>
    if c = '“' ∨ c = '”' then '"'
    else if c = '‘' ∨ c = '’' then '\''
    else c

/-! ### Arithmetic-expression rewrite

`fixArithmeticExpressions` (src/unnamed/part_007) applies a Go regexp
with `ReplaceAllStringFunc`, keeping only the leading number of a
numeric field whose value is an arithmetic expression. The regexp is,
group by group: (1) one of six quoted field names, optional whitespace,
a colon, optional whitespace; (2) a nonempty greedy run of digits and
dots; then an uncaptured greedy whitespace run; (3) a nonempty lazy run
over the class of asterisk, plus, minus, slash, whitespace, parentheses,
digits and dot; (4) optional whitespace followed by one of comma, right
brace, right square bracket, newline. The model below re-implements the
regexp as an explicit scanner with leftmost-first (backtracking
priority) semantics. A match can only begin at an occurrence of one of
the six quoted field names, so the rewrite is the identity on any text
containing none of them (which is the case for every concrete input
below, as for the Go original). -/

/-- The six numeric field names of the source regexp. -/
def arithFieldNames : List (List Char) :=
  ["risk_usd", "position_size_usd", "stop_loss", "take_profit", "leverage",
    "confidence"].map String.toList

/-- RE2 `\s`: space, TAB, LF, FF, CR. -/
def reIsSpace (c : Char) : Bool :=
  c = ' ' ∨ c = '\t' ∨ c = '\n' ∨ c = '\x0c' ∨ c = '\r'

/-- The character class `[\d.]` of group 2. -/
def isDigitDot (c : Char) : Bool :=
  c.isDigit ∨ c = '.'

/-- The character class of group 3: asterisk, plus, minus, slash,
whitespace, parentheses, digits, dot. -/
def isExprClass (c : Char) : Bool :=
  c = '*' ∨ c = '+' ∨ c = '-' ∨ c = '/' ∨ reIsSpace c ∨ c = '(' ∨ c = ')' ∨ isDigitDot c

/-- The terminator class `[,}\]\n]` of group 4. -/
def isTermChar (c : Char) : Bool :=
  c = ',' ∨ c = '}' ∨ c = ']' ∨ c = '\n'

/-- `[n, n-1, …, 1]`: greedy preference order for a `+`-quantified group
of maximal possible length `n`. -/
def greedyLens (n : Nat) : List Nat :=
  (List.range n).reverse.map (· + 1)

/-- `[n, n-1, …, 0]`: greedy preference order for a `*`-quantified group. -/
def greedyLensZ (n : Nat) : List Nat :=
  (List.range (n + 1)).reverse

/-- `[1, 2, …, n]`: lazy preference order for a `+?`-quantified group. -/
def lazyLens (n : Nat) : List Nat :=
  (List.range n).map (· + 1)

/-- Try to match group 4 (`\s*[,}\]\n]`) at the head of `s`; return the
matched characters. The inner `\s*` is greedy. -/
def matchGroup4 (s : List Char) : Option (List Char) :=
  (greedyLensZ ((s.takeWhile reIsSpace).length)).findSome? fun sp =>
    match (s.drop sp).head? with
    | some t => if isTermChar t then some ((s.take sp) ++ [t]) else none
    | none => none

/-- Try to match groups 2–4 of the regexp at the head of `s` (the part
after the colon and its spaces). On success return
`(g2, g3, g4, totalLen)` where `totalLen` counts every consumed
character including the uncaptured middle `\s*`. -/
def matchNumberTail (s : List Char) : Option (List Char × List Char × List Char × Nat) :=
  let digitRun := s.takeWhile isDigitDot
  (greedyLens digitRun.length).findSome? fun g2len =>
    let g2 := s.take g2len
    let after2 := s.drop g2len
    (greedyLensZ ((after2.takeWhile reIsSpace).length)).findSome? fun gap =>
      let after3start := after2.drop gap
      (lazyLens ((after3start.takeWhile isExprClass).length)).findSome? fun g3len =>
        let g3 := after3start.take g3len
        match matchGroup4 (after3start.drop g3len) with
        | some g4 => some (g2, g3, g4, g2len + gap + g3len + g4.length)
        | none => none

/-- Try to match the whole regexp at the head of `s`. On success return
`(matchLen, replacement)`, the replacement being what the source's
callback substitutes: if group 3 contains an arithmetic operator
character (asterisk, plus, minus, slash or a parenthesis, per the
source's `strings.ContainsAny`), the match
collapses to group 1 ++ group 2 ++ group 4; otherwise the match is kept
verbatim. -/
def tryArithMatchAt (s : List Char) : Option (Nat × List Char) :=
  match s with
  | '"' :: r0 =>
    arithFieldNames.findSome? fun name =>
      if (name ++ ['"']).isPrefixOf r0 then
        let r1 := r0.drop (name.length + 1)
        let sp1 := r1.takeWhile reIsSpace
        match (r1.drop sp1.length) with
        | ':' :: r3 =>
          let sp2 := r3.takeWhile reIsSpace
          let r4 := r3.drop sp2.length
          let group1 := '"' :: name ++ ['"'] ++ sp1 ++ [':'] ++ sp2
          match matchNumberTail r4 with
          | some (g2, g3, g4, tailLen) =>
            if g3.any (fun c => c = '*' ∨ c = '+' ∨ c = '-' ∨ c = '/' ∨ c = '(' ∨ c = ')') then
              some (group1.length + tailLen, group1 ++ g2 ++ g4)
            else
              some (group1.length + tailLen, (s.take (group1.length + tailLen)))
          | none => none
        | _ => none
      else none
  | _ => none

/-- The `ReplaceAllStringFunc` scan: find successive non-overlapping
leftmost matches and substitute the callback's result; fuel bounds the
recursion (each step consumes at least one character, so `s.length`
fuel suffices). -/
def fixArithScan : Nat → List Char → List Char
  | 0, s => s
  | _, [] => []
  | fuel + 1, c :: rest =>
    match tryArithMatchAt (c :: rest) with
    | some (len, rep) => rep ++ fixArithScan fuel ((c :: rest).drop len)
    | none => c :: fixArithScan fuel rest

/-- `fixArithmeticExpressions` (src/unnamed/part_007). -/
def fixArithmeticExpressions (s : List Char) : List Char :=
  fixArithScan s.length s

/-! ### JSON decoding

`encoding/json`'s `json.Unmarshal(data, &[]Decision{…})`, modelled for
the JSON fragment the decision pipeline feeds it: a value is null, a
boolean, a number, a string, an array or an object; unknown object keys
are ignored; `null` leaves the target field at its zero value; a number
whose mathematical value is not an integer cannot populate an `int`
field; any other type mismatch is an error. Number literals are decoded
exactly (the Go decoder's float64 rounding is modelled as exact rational
arithmetic) and string escapes cover the JSON escapes except `\u`
(absent from every input in this development). -/

/-- A parsed JSON value. -/
inductive Json where
  | null : Json
  | bool (b : Bool) : Json
  | num (v : ℚ) : Json
  | str (s : List Char) : Json
  | arr (items : List Json) : Json
  | obj (fields : List (List Char × Json)) : Json

/-- JSON inter-token whitespace. -/
def jsonIsWs (c : Char) : Bool :=
  c = ' ' ∨ c = '\t' ∨ c = '\n' ∨ c = '\r'

/-- Skip JSON whitespace. -/
def skipWs (s : List Char) : List Char :=
  s.dropWhile jsonIsWs

/-- Decimal value of a digit run. -/
def digitsToNat (ds : List Char) : Nat :=
  ds.foldl (fun acc c => acc * 10 + (c.toNat - '0'.toNat)) 0

/-- Parse the body of a JSON string after its opening quote; `fuel`
bounds the recursion (one character is consumed per step). -/
def parseStringBody : Nat → List Char → Except String (List Char × List Char)
  | 0, _ => .error "string too long"
  | _, [] => .error "unterminated string"
  | fuel + 1, c :: rest =>
    if c = '"' then .ok ([], rest)
    else if c = '\\' then
      match rest with
      | [] => .error "unterminated escape"
      | e :: rest2 =>
        let decoded : Except String Char :=
          if e = '"' then .ok '"'
          else if e = '\\' then .ok '\\'
          else if e = '/' then .ok '/'
          else if e = 'n' then .ok '\n'
          else if e = 't' then .ok '\t'
          else if e = 'r' then .ok '\r'
          else if e = 'b' then .ok '\x08'
          else if e = 'f' then .ok '\x0c'
          else .error "unsupported escape"
        match decoded with
        | .error msg => .error msg
        | .ok ch =>
          match parseStringBody fuel rest2 with
          | .error msg => .error msg
          | .ok (tail, rem) => .ok (ch :: tail, rem)
    else
      match parseStringBody fuel rest with
      | .error msg => .error msg
      | .ok (tail, rem) => .ok (c :: tail, rem)

/-- Parse a JSON number token at the head of `s`. -/
def parseNumberToken (s : List Char) : Except String (ℚ × List Char) :=
  let (sign, s1) : ℚ × List Char :=
    match s with
    | '-' :: rest => (-1, rest)
    | _ => (1, s)
  let intDigits := s1.takeWhile Char.isDigit
  if intDigits = [] then .error "invalid number"
  else
    let s2 := s1.drop intDigits.length
    let (fracDigits, s3) : List Char × List Char :=
      match s2 with
      | '.' :: rest => (rest.takeWhile Char.isDigit, rest.drop (rest.takeWhile Char.isDigit).length)
      | _ => ([], s2)
    if s2 ≠ s3 ∧ fracDigits = [] then .error "invalid fraction"
    else
      let mantissa : ℚ :=
        (digitsToNat intDigits : ℚ) + (digitsToNat fracDigits : ℚ) / ((10 : ℚ) ^ fracDigits.length)
      match s3 with
      | 'e' :: rest | 'E' :: rest =>
        let (expSign, r1) : Int × List Char :=
          match rest with
          | '-' :: r => (-1, r)
          | '+' :: r => (1, r)
          | _ => (1, rest)
        let expDigits := r1.takeWhile Char.isDigit
        if expDigits = [] then .error "invalid exponent"
        else
          .ok (sign * mantissa * (10 : ℚ) ^ (expSign * (digitsToNat expDigits : Int)),
            r1.drop expDigits.length)
      | _ => .ok (sign * mantissa, s3)

mutual

/-- Parse one JSON value at the head of `s` (after optional leading
whitespace). -/
def parseJsonValue : Nat → List Char → Except String (Json × List Char)
  | 0, _ => .error "JSON too deep"
  | fuel + 1, s =>
    match skipWs s with
    | [] => .error "unexpected end of JSON"
    | '{' :: rest => parseJsonObjectFields fuel rest
    | '[' :: rest => parseJsonArrayItems fuel rest
    | '"' :: rest =>
      match parseStringBody (rest.length + 1) rest with
      | .error msg => .error msg
      | .ok (body, rem) => .ok (.str body, rem)
    | 't' :: rest =>
      if ("rue".toList).isPrefixOf rest then .ok (.bool true, rest.drop 3)
      else .error "invalid literal"
    | 'f' :: rest =>
      if ("alse".toList).isPrefixOf rest then .ok (.bool false, rest.drop 4)
      else .error "invalid literal"
    | 'n' :: rest =>
      if ("ull".toList).isPrefixOf rest then .ok (.null, rest.drop 3)
      else .error "invalid literal"
    | other =>
      match parseNumberToken other with
      | .error msg => .error msg
      | .ok (v, rem) => .ok (.num v, rem)

/-- Parse the items of a JSON array after its opening bracket. -/
def parseJsonArrayItems : Nat → List Char → Except String (Json × List Char)
  | 0, _ => .error "JSON too deep"
  | fuel + 1, s =>
    match skipWs s with
    | ']' :: rest => .ok (.arr [], rest)
    | other =>
      match parseJsonValue fuel other with
      | .error msg => .error msg
      | .ok (v, rem) => parseJsonArrayRest fuel [v] rem

/-- Parse the continuation of a JSON array after a parsed item:
either a comma and another item, or the closing bracket. `acc` holds
the items parsed so far, in reverse. -/
def parseJsonArrayRest : Nat → List Json → List Char → Except String (Json × List Char)
  | 0, _, _ => .error "JSON too deep"
  | fuel + 1, acc, s =>
    match skipWs s with
    | ',' :: rest =>
      match parseJsonValue fuel rest with
      | .error msg => .error msg
      | .ok (v, rem) => parseJsonArrayRest fuel (v :: acc) rem
    | ']' :: rest => .ok (.arr acc.reverse, rest)
    | _ => .error "expected comma or closing bracket"

/-- Parse the fields of a JSON object after its opening brace. -/
def parseJsonObjectFields : Nat → List Char → Except String (Json × List Char)
  | 0, _ => .error "JSON too deep"
  | fuel + 1, s =>
    match skipWs s with
    | '}' :: rest => .ok (.obj [], rest)
    | '"' :: rest =>
      match parseStringBody (rest.length + 1) rest with
      | .error msg => .error msg
      | .ok (key, rem) =>
        match skipWs rem with
        | ':' :: rem2 =>
          match parseJsonValue fuel rem2 with
          | .error msg => .error msg
          | .ok (v, rem3) => parseJsonObjectRest fuel [(key, v)] rem3
        | _ => .error "expected colon"
    | _ => .error "expected key or closing brace"

/-- Parse the continuation of a JSON object after a parsed field. -/
def parseJsonObjectRest : Nat → List (List Char × Json) → List Char → Except String (Json × List Char)
  | 0, _, _ => .error "JSON too deep"
  | fuel + 1, acc, s =>
    match skipWs s with
    | ',' :: rest =>
      match skipWs rest with
      | '"' :: rest2 =>
        match parseStringBody (rest2.length + 1) rest2 with
        | .error msg => .error msg
        | .ok (key, rem) =>
          match skipWs rem with
          | ':' :: rem2 =>
            match parseJsonValue fuel rem2 with
            | .error msg => .error msg
            | .ok (v, rem3) => parseJsonObjectRest fuel ((key, v) :: acc) rem3
          | _ => .error "expected colon"
      | _ => .error "expected key"
    | '}' :: rest => .ok (.obj acc.reverse, rest)
    | _ => .error "expected comma or closing brace"

end

/-- Populate one `Decision` field from a JSON object member, mirroring
`encoding/json` field matching on the struct's JSON tags: unknown keys
are ignored, `null` is a no-op, numbers must be integral for the two
`int` fields, and a type mismatch is an error. -/
def decodeDecisionField (d : Decision) (key : List Char) (v : Json) : Except String Decision :=
  match v with
  | .null => .ok d
  | _ =>
    if key = "symbol".toList then
      match v with
      | .str s => .ok { d with symbol := String.mk s }
      | _ => .error "cannot unmarshal into field symbol"
    else if key = "action".toList then
      match v with
      | .str s => .ok { d with action := String.mk s }
      | _ => .error "cannot unmarshal into field action"
    else if key = "leverage".toList then
      match v with
      | .num q => if q.den = 1 then .ok { d with leverage := q.num } else .error "not an integer"
      | _ => .error "cannot unmarshal into field leverage"
    else if key = "position_size_usd".toList then
      match v with
      | .num q => .ok { d with positionSizeUSD := q }
      | _ => .error "cannot unmarshal into field position_size_usd"
    else if key = "stop_loss".toList then
      match v with
      | .num q => .ok { d with stopLoss := q }
      | _ => .error "cannot unmarshal into field stop_loss"
    else if key = "take_profit".toList then
      match v with
      | .num q => .ok { d with takeProfit := q }
      | _ => .error "cannot unmarshal into field take_profit"
    else if key = "confidence".toList then
      match v with
      | .num q => if q.den = 1 then .ok { d with confidence := q.num } else .error "not an integer"
      | _ => .error "cannot unmarshal into field confidence"
    else if key = "risk_usd".toList then
      match v with
      | .num q => .ok { d with riskUSD := q }
      | _ => .error "cannot unmarshal into field risk_usd"
    else if key = "reasoning".toList then
      match v with
      | .str s => .ok { d with reasoning := String.mk s }
      | _ => .error "cannot unmarshal into field reasoning"
    else .ok d

/-- Decode one decision from a JSON value (must be an object). -/
def decodeDecision (v : Json) : Except String Decision :=
  match v with
  | .obj fields =>
    fields.foldlM (fun d kv => decodeDecisionField d kv.1 kv.2) Decision.zero
  | _ => .error "cannot unmarshal into Decision"

/-- `json.Unmarshal(jsonContent, &decisions)` for `[]Decision`: the text
must be exactly one JSON value with nothing but whitespace after it, and
that value must be an array of objects (or `null`, which leaves the
slice empty). -/
def decodeDecisions (s : List Char) : Except String (List Decision) :=
  match parseJsonValue (s.length + 1) s with
  | .error msg => .error msg
  | .ok (v, rest) =>
    if skipWs rest ≠ [] then .error "invalid character after top-level value"
    else
      match v with
      | .arr items => items.mapM decodeDecision
      | .null => .ok []
      | _ => .error "cannot unmarshal into slice"

/-! ### Decision extraction (src/unnamed/part_007) -/

/-- The scan loop of `extractDecisions` (src/unnamed/part_007): starting
at `searchStart`, find the next `[`, match its closing bracket, skip
blocks that contain neither `"symbol"` nor `"action"`, repair quotes and
arithmetic expressions, JSON-decode, and accept the first block that
decodes to a nonempty decision array whose first decision has a
nonempty symbol. On acceptance the result also records the index of the
accepted block's opening bracket. `searchStart` strictly increases at
every iteration, so `response.length + 1` fuel is never exhausted. -/
def extractDecisionsLoop (response : List Char) : Nat → Nat → Option (Nat × List Decision)
  | 0, _ => none
  | fuel + 1, searchStart =>
    match indexOfCharFrom response '[' searchStart with
    | none => none
    | some arrayStart =>
      match findMatchingBracket response arrayStart with
      | none => extractDecisionsLoop response fuel (arrayStart + 1)
      | some arrayEnd =>
        let jsonContent := trimSpace ((response.take (arrayEnd + 1)).drop arrayStart)
        if ¬ (containsSub jsonContent ("\"symbol\"".toList)
            ∨ containsSub jsonContent ("\"action\"".toList)) then
          extractDecisionsLoop response fuel (arrayEnd + 1)
        else
          let repaired := fixArithmeticExpressions (fixMissingQuotes jsonContent)
          match decodeDecisions repaired with
          | .ok (d0 :: ds) =>
            if d0.symbol ≠ "" then some (arrayStart, d0 :: ds)
            else extractDecisionsLoop response fuel (arrayEnd + 1)
          | .ok [] => extractDecisionsLoop response fuel (arrayEnd + 1)
          | .error _ => extractDecisionsLoop response fuel (arrayEnd + 1)

/-- A synthetic `wait` decision with a diagnostic reason, as built by
the fallback paths of `extractDecisions` (src/unnamed/part_007). -/
def waitFallback (reason : String) : Decision :=
  { symbol := "", action := "wait", reasoning := reason }

/-- `extractDecisions` (src/unnamed/part_007): the scan loop, then the
fallback on the last `[` of the response; every failure path yields a
synthetic `wait` decision rather than an error. -/
def extractDecisions (response : List Char) : Except String (List Decision) :=
  match extractDecisionsLoop response (response.length + 1) 0 with
  | some (_, decisions) => .ok decisions
  | none =>
    match lastIndexOfChar response '[' with
    | none => .ok [waitFallback "AI响应格式错误，未找到JSON数组"]
    | some arrayStart =>
      match findMatchingBracket response arrayStart with
      | none => .ok [waitFallback "AI响应格式错误，JSON数组不完整"]
      | some arrayEnd =>
        let jsonContent := trimSpace ((response.take (arrayEnd + 1)).drop arrayStart)
        let repaired := fixArithmeticExpressions (fixMissingQuotes jsonContent)
        match decodeDecisions repaired with
        | .error _ => .ok [waitFallback "JSON解析失败"]
        | .ok decisions => .ok decisions

/-- `extractCoTTrace` (src/unnamed/part_007): everything before the
first `[` of the response, whitespace-trimmed; if there is no `[` or it
sits at index 0, the whole trimmed response. -/
def extractCoTTrace (response : List Char) : List Char :=
  match indexOfCharFrom response '[' 0 with
  | some jsonStart =>
    if 0 < jsonStart then trimSpace (response.take jsonStart) else trimSpace response
  | none => trimSpace response

/-- `normalizeDecisions` body for one decision (src/unnamed/part_007):
for opening actions, raise `position_size_usd` to the configured minimum
and truncate it to the configured maximum (both clamps compare against
the size as read before any clamp, as the source does), appending a note
to a nonempty `reasoning`. -/
def normalizeDecision1 (minPositionSizeUSD maxPositionSizeUSD : ℚ) (d : Decision) : Decision :=
  if d.action = "open_long" ∨ d.action = "open_short" then
    let size := d.positionSizeUSD
    let d1 :=
      if 0 < minPositionSizeUSD ∧ 0 < size ∧ size < minPositionSizeUSD then
        { d with positionSizeUSD := minPositionSizeUSD,
                 reasoning := if d.reasoning ≠ ""
                   then d.reasoning ++ " | 已按最小仓位限制调整为 " else d.reasoning }
      else d
    if 0 < maxPositionSizeUSD ∧ maxPositionSizeUSD < size then
      { d1 with positionSizeUSD := maxPositionSizeUSD,
                reasoning := if d1.reasoning ≠ ""
                  then d1.reasoning ++ " | 已按最大仓位限制截断" else d1.reasoning }
    else d1
  else d

/-- `normalizeDecisions` (src/unnamed/part_007). -/
def normalizeDecisions (decisions : List Decision)
    (minPositionSizeUSD maxPositionSizeUSD : ℚ) : List Decision :=
  decisions.map (normalizeDecision1 minPositionSizeUSD maxPositionSizeUSD)

/-- `FullDecision` (src/unnamed/part_007), restricted to the fields the
parser fills (`UserPrompt` and `Timestamp` are set by the caller). -/
structure FullDecision where
  cotTrace : List Char
  decisions : List Decision
deriving DecidableEq, Repr

/-- `parseFullDecisionResponse` (src/unnamed/part_007). The Go function
returns a `*FullDecision` together with an error that is non-nil when
extraction or validation failed; this is modelled as an `Except` whose
error side carries both the partial `FullDecision` and the message. -/
def parseFullDecisionResponse (aiResponse : List Char) (accountEquity : ℚ)
    (btcEthLeverage altcoinLeverage : Int)
    (minPositionSizeUSD maxPositionSizeUSD : ℚ) :
    Except (FullDecision × String) FullDecision :=
  let cotTrace := extractCoTTrace aiResponse
  match extractDecisions aiResponse with
  | .error e =>
    .error ({ cotTrace := cotTrace, decisions := [] }, "提取决策失败: " ++ e)
  | .ok decisions0 =>
    let decisions := normalizeDecisions decisions0 minPositionSizeUSD maxPositionSizeUSD
    match validateDecisions decisions accountEquity btcEthLeverage altcoinLeverage
        minPositionSizeUSD maxPositionSizeUSD with
    | .error e =>
      .error ({ cotTrace := cotTrace, decisions := decisions }, "决策验证失败: " ++ e)
    | .ok () => .ok { cotTrace := cotTrace, decisions := decisions }

deriving instance DecidableEq for Except

/-! ### Market-data liquidity filter (src/unnamed/part_007) -/

/-- `market.OIData`: open-interest figures for one symbol (constructed
by every provider as latest plus approximate average). -/
structure OIData where
  latest : ℚ
  average : ℚ
deriving DecidableEq, Repr

/-- The fields of `market.Data` that `fetchMarketDataForContext` reads:
the current price and the optional open-interest block (`nil` when the
provider does not supply it). The remaining snapshot fields do not
influence the filter and are omitted. -/
structure MarketData where
  symbol : String
  currentPrice : ℚ
  openInterest : Option OIData
deriving DecidableEq, Repr

/-- The per-symbol fetch-and-filter body of `fetchMarketDataForContext`
(src/unnamed/part_007): `fetch` stands for `market.Get` (`none` models a
fetch error, which only omits that symbol); a symbol that is not an
existing position, has open-interest data, and has a positive current
price is dropped when its open-interest value in millions of USD is
below 15; everything else that fetched successfully is kept. The
resulting map is modelled as the association list of kept entries over
the iteration order of `symbols`. -/
def fetchMarketDataFilter (symbols : List String) (positionSymbols : List String)
    (fetch : String → Option MarketData) : List (String × MarketData) :=
  symbols.filterMap fun symbol =>
    match fetch symbol with
    | none => none
    | some data =>
      let isExistingPosition := symbol ∈ positionSymbols
      match data.openInterest with
      | some oi =>
        if ¬ isExistingPosition ∧ 0 < data.currentPrice
            ∧ (oi.latest * data.currentPrice) / 1000000 < 15 then
          none
        else some (symbol, data)
      | none => some (symbol, data)

/-! ### LLM call retry loop (src/unnamed/part_005) -/

/-- `isRetryableError` (src/unnamed/part_005): an error is retryable
precisely when its text contains one of the six transport-failure
substrings. -/
def retryableErrors : List String :=
  ["EOF", "timeout", "connection reset", "connection refused",
    "temporary failure", "no such host"]

/-- `isRetryableError` (src/unnamed/part_005). -/
def isRetryableError (errStr : String) : Bool :=
  retryableErrors.any fun retryable => containsSub errStr.toList retryable.toList

/-- The observable outcome of `CallWithMessages`: the returned value or
error, the number of `callOnce` attempts made, and the seconds slept
between attempts, in order. -/
structure CallResult where
  result : Except String String
  attempts : Nat
  waits : List Nat
deriving DecidableEq, Repr

/-- The retry loop of `CallWithMessages` (src/unnamed/part_005),
parameterized by the outcome of each `callOnce` attempt. `remaining`
counts the loop iterations left (`maxRetries` on entry), `attempt` is
the 1-based attempt counter, `lastErr` the last failure, and `waits`
accumulates the sleeps in reverse. -/
def callLoop (callOnce : Nat → Except String String) (maxRetries : Nat) :
    Nat → Nat → String → List Nat → CallResult
  | 0, attempt, lastErr, waits =>
    { result := .error ("重试3次后仍然失败: " ++ lastErr),
      attempts := attempt - 1, waits := waits.reverse }
  | remaining + 1, attempt, _, waits =>
    match callOnce attempt with
    | .ok result => { result := .ok result, attempts := attempt, waits := waits.reverse }
    | .error err =>
      if isRetryableError err then
        if attempt < maxRetries then
          callLoop callOnce maxRetries remaining (attempt + 1) err (attempt * 2 :: waits)
        else
          callLoop callOnce maxRetries remaining (attempt + 1) err waits
      else
        { result := .error err, attempts := attempt, waits := waits.reverse }

/-- `CallWithMessages` (src/unnamed/part_005): reject a missing API key,
then run up to `maxRetries = 3` attempts with linear backoff. -/
def callWithMessages (apiKey : String) (callOnce : Nat → Except String String) : CallResult :=
  if apiKey = "" then
    { result := .error "AI API密钥未设置", attempts := 0, waits := [] }
  else
    callLoop callOnce 3 3 1 "" []

/-! ### Outside-day detector (src/indicator/patterns.go) -/

/-- `market.Kline`: one OHLCV bar (field set per the Gate.io provider's
constructor in src/market/gateio.go). -/
structure Kline where
  openTime : Int := 0
  openPrice : ℚ := 0
  high : ℚ := 0
  low : ℚ := 0
  close : ℚ := 0
  volume : ℚ := 0
  closeTime : Int := 0
deriving DecidableEq, Repr, Inhabited

/-- `OutsideDaySignal` constants (src/indicator/patterns.go). -/
def OutsideDayLONG : String := "LONG"

/-- `OutsideDaySignal` constant SHORT. -/
def OutsideDaySHORT : String := "SHORT"

/-- `OutsideDaySignal` constant WAIT. -/
def OutsideDayWAIT : String := "WAIT"

/-- `OutsideDayResult` (src/indicator/patterns.go); the formatted
`Reasoning` strings are modelled by their constant message text. -/
structure OutsideDayResult where
  signalType : String
  confidence : ℚ
  strength : ℚ
  reasoning : List String
deriving DecidableEq, Repr

/-- The `current` bar of `DetectOutsideDay` (src/indicator/patterns.go):
the last kline of the series. -/
def currentBar (klines : List Kline) : Kline :=
  klines.getD (klines.length - 1) default

/-- The `previous` bar of `DetectOutsideDay` (src/indicator/patterns.go):
the next-to-last kline of the series. -/
def previousBar (klines : List Kline) : Kline :=
  klines.getD (klines.length - 2) default

/-- The body-ratio computation of `DetectOutsideDay`
(src/indicator/patterns.go): current body over previous body, 0 when
the previous body is empty. -/
def outsideBodyRatio (current previous : Kline) : ℚ :=
  let currentBodySize := |current.close - current.openPrice|
  let previousBodySize := |previous.close - previous.openPrice|
  if 0 < previousBodySize then currentBodySize / previousBodySize else 0

/-- `DetectOutsideDay` (src/indicator/patterns.go): outside bar when the
current high exceeds the previous high and the current low undercuts the
previous low; body-ratio gate at 2.0; contrarian signal (close below the
previous low is LONG, close above the previous high is SHORT). -/
def detectOutsideDay (klines : List Kline) : OutsideDayResult :=
  if klines.length < 2 then
    { signalType := OutsideDayWAIT, confidence := 0, strength := 0,
      reasoning := ["Insufficient data for Outside Day analysis"] }
  else
    let current := currentBar klines
    let previous := previousBar klines
    if ¬ (previous.high < current.high ∧ current.low < previous.low) then
      { signalType := OutsideDayWAIT, confidence := 0, strength := 0,
        reasoning := ["No Outside Day pattern detected"] }
    else
      let bodyRatio := outsideBodyRatio current previous
      if bodyRatio < 2 then
        { signalType := OutsideDayWAIT, confidence := 0, strength := 0,
          reasoning := ["Body ratio below minimum"] }
      else if current.close < previous.low then
        { signalType := OutsideDayLONG, confidence := 0.75,
          strength := min (bodyRatio / 3) 1,
          reasoning := ["Outside Day pattern detected",
            "Close below Previous Low: LONG signal", "Body ratio"] }
      else if previous.high < current.close then
        { signalType := OutsideDaySHORT, confidence := 0.75,
          strength := min (bodyRatio / 3) 1,
          reasoning := ["Outside Day pattern detected",
            "Close above Previous High: SHORT signal", "Body ratio"] }
      else
        { signalType := OutsideDayWAIT, confidence := 0, strength := 0,
          reasoning := ["Outside Day pattern detected but no clear signal direction"] }

/-! ### Concrete inputs for the boundary claims -/

/-- The spec's RR-boundary decision with `take_profit = 100900`; the
remaining fields satisfy every other configured bound (equity 10000,
BTC/ETH cap 10, altcoin cap 5, min size 0, max size 2000). -/
def decisionRR900 : Decision :=
  { symbol := "BTCUSDT", action := "open_long", leverage := 5, positionSizeUSD := 1000,
    stopLoss := 100000, takeProfit := 100900, confidence := 80, reasoning := "r" }

/-- The spec's RR-boundary decision with `take_profit = 100600`. -/
def decisionRR600 : Decision :=
  { decisionRR900 with takeProfit := 100600 }

/-- An opening decision for an altcoin whose leverage sits at the
altcoin cap. -/
def decisionLevOk : Decision :=
  { symbol := "SOLUSDT", action := "open_long", leverage := 5, positionSizeUSD := 1000,
    stopLoss := 100, takeProfit := 200, confidence := 80, reasoning := "r" }

/-- The first decision of the mixed batch: individually valid. -/
def decisionWaitA : Decision :=
  { symbol := "BTCUSDT", action := "wait", reasoning := "a" }

/-- The second decision of the mixed batch: an unrecognized action, so
it fails validation. -/
def decisionBadB : Decision :=
  { symbol := "SOLUSDT", action := "open_sideways", reasoning := "b" }

/-- A response whose decision array holds one valid and one invalid
decision. -/
def responseMixedBatch : List Char :=
  "analysis [\x7b\"symbol\":\"BTCUSDT\",\"action\":\"wait\",\"reasoning\":\"a\"\x7d,\x7b\"symbol\":\"SOLUSDT\",\"action\":\"open_sideways\",\"reasoning\":\"b\"\x7d]".toList

/-- A response that is exactly an empty JSON array. -/
def responseEmptyArray : List Char :=
  "[]".toList

/-- The decision carried by the single-object decision arrays below. -/
def decisionWaitX : Decision :=
  { symbol := "BTCUSDT", action := "wait", reasoning := "x" }

/-- The spec's parser boundary scenario: a scalar price array followed
by a decisions array. The second `[` sits at index 25. -/
def responseTwoArrays : List Char :=
  "[100000, 100100, 100200] [\x7b\"symbol\":\"BTCUSDT\",\"action\":\"wait\",\"reasoning\":\"x\"\x7d]".toList

/-- A response with prose, then a scalar array, then more prose, then
the decisions array (whose `[` sits at index 25). -/
def responseProseBetween : List Char :=
  "price levels [1, 2] here [\x7b\"symbol\":\"BTCUSDT\",\"action\":\"wait\",\"reasoning\":\"x\"\x7d]".toList

/-- A response whose accepted decisions array starts at the response's
first `[` (index 6), preceded by prose. -/
def responseCoTSimple : List Char :=
  "hello [\x7b\"symbol\":\"BTCUSDT\",\"action\":\"wait\",\"reasoning\":\"x\"\x7d]".toList

/-- Market data with open interest present but a zero current price, so
its open-interest value (latest times price) is 0 USD. -/
def marketDataZeroPrice : MarketData :=
  { symbol := "XYZUSDT", currentPrice := 0, openInterest := some { latest := 100, average := 99.9 } }

/-- A fetch function that returns `marketDataZeroPrice` for XYZUSDT. -/
def fetchZeroPrice : String → Option MarketData :=
  fun s => if s = "XYZUSDT" then some marketDataZeroPrice else none

/-- Market data for a held position whose open-interest value (50 USD)
is far below the liquidity threshold. -/
def marketDataLowOI : MarketData :=
  { symbol := "ABCUSDT", currentPrice := 0.5, openInterest := some { latest := 100, average := 99.9 } }

/-- A fetch function that returns `marketDataLowOI` for ABCUSDT. -/
def fetchLowOI : String → Option MarketData :=
  fun s => if s = "ABCUSDT" then some marketDataLowOI else none

/-- A two-bar series forming an outside bar with body ratio 8 whose
close undercuts the previous low. -/
def klinesOutside : List Kline :=
  [{ openTime := 0, openPrice := 7, high := 10, low := 5, close := 8, volume := 1, closeTime := 1 },
   { openTime := 1, openPrice := 11, high := 12, low := 4, close := 3, volume := 1, closeTime := 2 }]

/-! ## Helper lemmas -/

/-- A batch validates iff every decision in it validates individually;
equivalently, a single failing decision fails the whole batch. -/
theorem validateDecisionsFrom_ok_iff (ds : List Decision) (i : Nat) (accountEquity : ℚ)
    (btcEthLeverage altcoinLeverage : Int) (minP maxP : ℚ) :
    validateDecisionsFrom i ds accountEquity btcEthLeverage altcoinLeverage minP maxP = .ok ()
      ↔ ∀ d ∈ ds,
          validateDecision d accountEquity btcEthLeverage altcoinLeverage minP maxP = .ok () := by
  induction ds generalizing i with
  | nil => simp [validateDecisionsFrom]
  | cons d rest ih =>
    simp only [validateDecisionsFrom, List.forall_mem_cons]
    cases h : validateDecision d accountEquity btcEthLeverage altcoinLeverage minP maxP with
    | error msg => simp [h]
    | ok u => cases u; simp [h, ih]

/-- The scan loop only accepts a bracket-balanced block that contains
one of the two keywords and decodes to a nonempty decision list whose
first decision has a nonempty symbol. -/
theorem extractDecisionsLoop_sound (response : List Char) :
    ∀ fuel searchStart p ds,
      extractDecisionsLoop response fuel searchStart = some (p, ds) →
      ∃ arrayEnd, findMatchingBracket response p = some arrayEnd ∧
        (containsSub (trimSpace ((response.take (arrayEnd + 1)).drop p)) ("\"symbol\"".toList)
          ∨ containsSub (trimSpace ((response.take (arrayEnd + 1)).drop p)) ("\"action\"".toList)) ∧
        decodeDecisions (fixArithmeticExpressions (fixMissingQuotes
          (trimSpace ((response.take (arrayEnd + 1)).drop p)))) = .ok ds ∧
        ds ≠ [] ∧ (ds.headD Decision.zero).symbol ≠ "" := by
  intro fuel
  induction fuel with
  | zero =>
    intro s p ds h
    simp [extractDecisionsLoop] at h
  | succ n ih =>
    intro s p ds h
    rw [extractDecisionsLoop] at h
    split at h
    · exact absurd h (by simp)
    · rename_i arrayStart h1
      split at h
      · exact ih _ _ _ h
      · rename_i arrayEnd h2
        dsimp only at h
        split at h
        · exact ih _ _ _ h
        · rename_i h3
          split at h
          · rename_i d0 drest h4
            split at h
            · rename_i h5
              obtain ⟨hp, hds⟩ : arrayStart = p ∧ d0 :: drest = ds := by
                simpa using h
              subst hp; subst hds
              exact ⟨arrayEnd, h2, not_not.mp h3, h4, by simp, by simpa using h5⟩
            · exact ih _ _ _ h
          · exact ih _ _ _ h
          · exact ih _ _ _ h

/-- Membership characterization of the fetch-and-filter step: a pair
survives iff its symbol was iterated, its fetch succeeded with exactly
that data, and the liquidity-drop condition does not apply. -/
theorem mem_fetchMarketDataFilter_iff (symbols positionSymbols : List String)
    (fetch : String → Option MarketData) (s : String) (d : MarketData) :
    (s, d) ∈ fetchMarketDataFilter symbols positionSymbols fetch ↔
      s ∈ symbols ∧ fetch s = some d ∧
        ∀ oi, d.openInterest = some oi →
          ¬(s ∉ positionSymbols ∧ 0 < d.currentPrice
            ∧ oi.latest * d.currentPrice / 1000000 < 15) := by
  rw [fetchMarketDataFilter, List.mem_filterMap]
  constructor
  · rintro ⟨x, hx, hfx⟩
    cases hf : fetch x with
    | none => rw [hf] at hfx; exact absurd hfx (by simp)
    | some data =>
      rw [hf] at hfx
      dsimp only at hfx
      cases ho : data.openInterest with
      | none =>
        rw [ho] at hfx
        obtain ⟨hxs, hdd⟩ : x = s ∧ data = d := by simpa using hfx
        subst hxs; subst hdd
        refine ⟨hx, hf, ?_⟩
        intro oi hoi
        rw [ho] at hoi
        cases hoi
      | some oi =>
        rw [ho] at hfx
        dsimp only at hfx
        by_cases hc : ¬(x ∈ positionSymbols) ∧ 0 < data.currentPrice
            ∧ oi.latest * data.currentPrice / 1000000 < 15
        · rw [if_pos hc] at hfx
          exact absurd hfx (by simp)
        · rw [if_neg hc] at hfx
          obtain ⟨hxs, hdd⟩ : x = s ∧ data = d := by simpa using hfx
          subst hxs; subst hdd
          refine ⟨hx, hf, ?_⟩
          intro oi2 hoi2
          rw [ho] at hoi2
          obtain rfl : oi = oi2 := by injection hoi2
          exact hc
  · rintro ⟨hs, hf, hcond⟩
    refine ⟨s, hs, ?_⟩
    rw [hf]
    dsimp only
    cases ho : d.openInterest with
    | none => rfl
    | some oi => dsimp only; rw [if_neg (hcond oi ho)]

/-- The retry loop makes at most `attempt - 1 + remaining` attempts. -/
theorem callLoop_attempts_le (callOnce : Nat → Except String String) (maxRetries : Nat) :
    ∀ remaining attempt lastErr waits,
      (callLoop callOnce maxRetries remaining attempt lastErr waits).attempts
        ≤ attempt - 1 + remaining := by
  intro remaining
  induction remaining with
  | zero => intro attempt lastErr waits; simp [callLoop]
  | succ n ih =>
    intro attempt lastErr waits
    rw [callLoop]
    cases callOnce attempt with
    | ok r => simp; omega
    | error e =>
      dsimp only
      by_cases hr : isRetryableError e
      · rw [if_pos hr]
        by_cases ha : attempt < maxRetries
        · rw [if_pos ha]
          calc (callLoop callOnce maxRetries n (attempt + 1) e (attempt * 2 :: waits)).attempts
              ≤ attempt + 1 - 1 + n := ih (attempt + 1) e (attempt * 2 :: waits)
            _ ≤ attempt - 1 + (n + 1) := by omega
        · rw [if_neg ha]
          calc (callLoop callOnce maxRetries n (attempt + 1) e waits).attempts
              ≤ attempt + 1 - 1 + n := ih (attempt + 1) e waits
            _ ≤ attempt - 1 + (n + 1) := by omega
      · rw [if_neg hr]
        simp; omega

/-! ## Claim theorems -/

/-- C1 (amended): with the configured bounds otherwise satisfied, the
`open_long BTCUSDT` decision with `stop_loss = 100000` is accepted both
with `take_profit = 100900` and with `take_profit = 100600`: the 20%
entry approximation is recomputed from each bracket (entry 100180
respectively 100120), so the computed risk/reward ratio is exactly 4.0
in both cases and the 100600 variant is not rejected. -/
theorem claim_c1 :
    validateDecision decisionRR900 10000 10 5 0 2000 = .ok ()
    ∧ validateDecision decisionRR600 10000 10 5 0 2000 = .ok ()
    ∧ riskRewardRatio decisionRR900 = 4
    ∧ riskRewardRatio decisionRR600 = 4 := by
  refine ⟨?_, ?_, ?_, ?_⟩ <;>
    norm_num [decisionRR900, decisionRR600, validateDecision, validateBracketAndRR,
      validateRiskReward, riskRewardRatio, riskPercentOf, rewardPercentOf, entryPriceApprox,
      maxLeverageFor, maxPositionValueFor, validActions]

/-- C1 counterexample: the decision with `take_profit = 100600`, which
the claim says is rejected for a risk/reward ratio of about 2.33, is in
fact accepted by `validateDecision`, and the ratio the code computes for
it is exactly 4.0 (the code derives the entry from the new bracket,
100120, not from the 100900 bracket's 100180). -/
theorem claim_c1_counterexample :
    validateDecision decisionRR600 10000 10 5 0 2000 = .ok ()
    ∧ riskRewardRatio decisionRR600 = 4 := by
  constructor <;>
    norm_num [decisionRR900, decisionRR600, validateDecision, validateBracketAndRR,
      validateRiskReward, riskRewardRatio, riskPercentOf, rewardPercentOf, entryPriceApprox,
      maxLeverageFor, maxPositionValueFor, validActions]

/-- C2: for every opening decision that passes the directional bracket
check (stop loss below take profit for `open_long`, above it for
`open_short`, prices positive), the 20%-into-the-span entry
approximation makes the computed risk/reward ratio exactly 4, so the
below-3.0 rejection branch of `validateDecision` never fires for
directionally valid decisions. -/
theorem claim_c2 (d : Decision)
    (h : (d.action = "open_long" ∧ 0 < d.stopLoss ∧ d.stopLoss < d.takeProfit) ∨
         (d.action = "open_short" ∧ 0 < d.takeProfit ∧ d.takeProfit < d.stopLoss)) :
    riskRewardRatio d = 4 ∧ validateRiskReward d = Except.ok () := by
  have hmain : riskRewardRatio d = 4 := by
    rcases h with ⟨ha, hsl, hlt⟩ | ⟨ha, htp, hlt⟩
    · have he : entryPriceApprox d = d.stopLoss + (d.takeProfit - d.stopLoss) * 0.2 := by
        simp [entryPriceApprox, ha]
      have hepos : 0 < entryPriceApprox d := by
        rw [he]; nlinarith
      have hrisk : riskPercentOf d
          = (entryPriceApprox d - d.stopLoss) / entryPriceApprox d * 100 := by
        simp [riskPercentOf, ha]
      have hriskpos : 0 < riskPercentOf d := by
        rw [hrisk]
        have hnum : (0 : ℚ) < entryPriceApprox d - d.stopLoss := by rw [he]; nlinarith
        exact mul_pos (div_pos hnum hepos) (by norm_num)
      have hrew : rewardPercentOf d = 4 * riskPercentOf d := by
        rw [hrisk]; simp only [rewardPercentOf, ha, if_pos]; rw [he]; ring
      rw [riskRewardRatio, if_pos hriskpos, hrew]
      exact mul_div_cancel_right₀ 4 (ne_of_gt hriskpos)
    · have hno : d.action ≠ "open_long" := by rw [ha]; decide
      have he : entryPriceApprox d = d.stopLoss - (d.stopLoss - d.takeProfit) * 0.2 := by
        simp [entryPriceApprox, hno]
      have hepos : 0 < entryPriceApprox d := by
        rw [he]; nlinarith
      have hrisk : riskPercentOf d
          = (d.stopLoss - entryPriceApprox d) / entryPriceApprox d * 100 := by
        simp [riskPercentOf, hno]
      have hriskpos : 0 < riskPercentOf d := by
        rw [hrisk]
        have hnum : (0 : ℚ) < d.stopLoss - entryPriceApprox d := by rw [he]; nlinarith
        exact mul_pos (div_pos hnum hepos) (by norm_num)
      have hrew : rewardPercentOf d = 4 * riskPercentOf d := by
        rw [hrisk]; simp only [rewardPercentOf, hno, if_neg, ite_false]; rw [he]; ring
      rw [riskRewardRatio, if_pos hriskpos, hrew]
      exact mul_div_cancel_right₀ 4 (ne_of_gt hriskpos)
  refine ⟨hmain, ?_⟩
  rw [validateRiskReward, hmain, if_neg (by norm_num)]

/-- Witness for C2 at a concrete directionally valid decision. -/
theorem claim_c2_witness :
    riskRewardRatio decisionLevOk = 4 ∧ validateRiskReward decisionLevOk = Except.ok () :=
  claim_c2 decisionLevOk (Or.inl ⟨rfl, by norm_num [decisionLevOk], by norm_num [decisionLevOk]⟩)

/-- C3 (amended): a validation failure on any single decision makes
`validateDecisions` reject the entire batch — the batch result is `ok`
exactly when every decision validates individually — so the failing
decision is not downgraded to a `wait` and the remaining decisions do
not proceed. -/
theorem claim_c3 (ds : List Decision) (accountEquity : ℚ)
    (btcEthLeverage altcoinLeverage : Int) (minP maxP : ℚ) :
    validateDecisions ds accountEquity btcEthLeverage altcoinLeverage minP maxP = .ok ()
      ↔ ∀ d ∈ ds,
          validateDecision d accountEquity btcEthLeverage altcoinLeverage minP maxP = .ok () :=
  validateDecisionsFrom_ok_iff ds 0 accountEquity btcEthLeverage altcoinLeverage minP maxP

set_option maxRecDepth 10000 in
/-- C3 counterexample: a parsed batch holding one individually valid
decision and one invalid decision is returned by
`parseFullDecisionResponse` as a whole-batch error (the Go function's
non-nil error return); the valid decision does not proceed and the
invalid one is not downgraded to a `wait`. -/
theorem claim_c3_counterexample :
    parseFullDecisionResponse responseMixedBatch 10000 10 5 0 2000 =
      .error ({ cotTrace := "analysis".toList, decisions := [decisionWaitA, decisionBadB] },
        "决策验证失败: " ++ ("决策 #" ++ toString (2 : Nat) ++ " 验证失败: " ++ "无效的action"))
    ∧ validateDecision decisionWaitA 10000 10 5 0 2000 = .ok ()
    ∧ decisionBadB.action ≠ "wait" := by
  refine ⟨by decide, by decide, by decide⟩

/-- C4: an opening decision is accepted only with leverage between 1 and
the symbol's cap; a leverage above the cap is rejected; and the cap is
the BTC/ETH cap for BTCUSDT and ETHUSDT and the altcoin cap for every
other symbol. -/
theorem claim_c4 (d : Decision) (accountEquity : ℚ)
    (btcEthLeverage altcoinLeverage : Int) (minP maxP : ℚ)
    (hopen : d.action = "open_long" ∨ d.action = "open_short") :
    (validateDecision d accountEquity btcEthLeverage altcoinLeverage minP maxP = .ok () →
      1 ≤ d.leverage ∧ d.leverage ≤ maxLeverageFor d.symbol btcEthLeverage altcoinLeverage) ∧
    (maxLeverageFor d.symbol btcEthLeverage altcoinLeverage < d.leverage →
      ∃ msg, validateDecision d accountEquity btcEthLeverage altcoinLeverage minP maxP
        = .error msg) ∧
    maxLeverageFor d.symbol btcEthLeverage altcoinLeverage
      = (if d.symbol = "BTCUSDT" ∨ d.symbol = "ETHUSDT"
          then btcEthLeverage else altcoinLeverage) := by
  have hmem : d.action ∈ validActions := by
    rcases hopen with h | h <;> rw [h] <;> decide
  refine ⟨?_, ?_, rfl⟩
  · intro hok
    rw [validateDecision, if_neg (by simpa using hmem), if_pos hopen] at hok
    split_ifs at hok <;> first | simp at hok | omega
  · intro hcap
    rw [validateDecision, if_neg (by simpa using hmem), if_pos hopen,
      if_pos (Or.inr hcap)]
    exact ⟨_, rfl⟩

/-- C5 (amended): decision extraction never returns an error: for any
response text it returns some decision list — a nonempty one accepted by
the scan loop, the last bracket block's decode result (which may be
empty), or a single synthetic `wait` carrying a diagnostic. -/
theorem claim_c5 (response : List Char) :
    ∃ ds, extractDecisions response = Except.ok ds := by
  unfold extractDecisions
  dsimp only
  repeat' split
  all_goals exact ⟨_, rfl⟩

set_option maxRecDepth 10000 in
/-- C5 counterexample: on the response `[]` the extraction returns an
empty decision array — which is neither a non-empty decision array nor a
single synthetic `wait` decision — via the last-array fallback. -/
theorem claim_c5_counterexample :
    extractDecisions responseEmptyArray = Except.ok ([] : List Decision) := by
  decide

set_option maxRecDepth 10000 in
/-- C7: the scan loop accepts only a bracket-balanced block containing
`"symbol"` or `"action"` that decodes to an array whose first object
has a nonempty symbol (third conjunct); in particular, on a response
holding the scalar price array `[100000, 100100, 100200]` followed by
`[{"symbol":"BTCUSDT","action":"wait","reasoning":"x"}]`, the second
array — the one starting at index 25 — is the one used (first two
conjuncts). -/
theorem claim_c7 :
    extractDecisionsLoop responseTwoArrays (responseTwoArrays.length + 1) 0
      = some (25, [decisionWaitX])
    ∧ extractDecisions responseTwoArrays = Except.ok [decisionWaitX]
    ∧ (∀ (response : List Char) (fuel searchStart p : Nat) (ds : List Decision),
        extractDecisionsLoop response fuel searchStart = some (p, ds) →
        ∃ arrayEnd, findMatchingBracket response p = some arrayEnd ∧
          (containsSub (trimSpace ((response.take (arrayEnd + 1)).drop p)) ("\"symbol\"".toList)
            ∨ containsSub (trimSpace ((response.take (arrayEnd + 1)).drop p))
                ("\"action\"".toList)) ∧
          decodeDecisions (fixArithmeticExpressions (fixMissingQuotes
            (trimSpace ((response.take (arrayEnd + 1)).drop p)))) = .ok ds ∧
          ds ≠ [] ∧ (ds.headD Decision.zero).symbol ≠ "") := by
  exact ⟨by decide, by decide,
    fun response fuel searchStart p ds h =>
      extractDecisionsLoop_sound response fuel searchStart p ds h⟩

/-- Witness for C7: instantiating the acceptance-soundness conjunct at
the concrete accepted run yields the nonemptiness and nonempty-symbol
facts for the accepted array. -/
theorem claim_c7_witness :
    [decisionWaitX] ≠ ([] : List Decision)
    ∧ ([decisionWaitX].headD Decision.zero).symbol ≠ "" := by
  obtain ⟨e, -, -, -, hne, hsym⟩ :=
    claim_c7.2.2 responseTwoArrays (responseTwoArrays.length + 1) 0 25 [decisionWaitX]
      claim_c7.1
  exact ⟨hne, hsym⟩

/-- C8 (amended): the chain-of-thought trace is computed from the first
`[` of the whole response, not from the accepted array: when the
accepted array's opening bracket is the response's first `[` and sits at
a positive index, the trace equals the whitespace-trimmed text before
it. (The counterexample shows the claimed equality fails when an earlier
non-decision bracket block precedes the accepted array, and the code
also trims whitespace.) -/
theorem claim_c8 (response : List Char) (p : Nat) (ds : List Decision)
    (_haccept : extractDecisionsLoop response (response.length + 1) 0 = some (p, ds))
    (hfirst : indexOfCharFrom response '[' 0 = some p)
    (hpos : 0 < p) :
    extractCoTTrace response = trimSpace (response.take p) := by
  simp only [extractCoTTrace, hfirst]
  rw [if_pos hpos]

set_option maxRecDepth 10000 in
/-- Witness for C8 on a response whose accepted array starts at the
response's first `[` (index 6). -/
theorem claim_c8_witness :
    extractCoTTrace responseCoTSimple = trimSpace (responseCoTSimple.take 6) :=
  claim_c8 responseCoTSimple 6 [decisionWaitX] (by decide) (by decide) (by decide)

set_option maxRecDepth 10000 in
/-- C8 counterexample: on a response where a scalar bracket block
precedes the accepted decisions array (accepted at index 25), the
extracted trace is the trimmed text before the response's *first* `[`
(index 13), not everything before the accepted array's `[`. -/
theorem claim_c8_counterexample :
    extractDecisionsLoop responseProseBetween (responseProseBetween.length + 1) 0
      = some (25, [decisionWaitX])
    ∧ extractCoTTrace responseProseBetween = "price levels".toList
    ∧ extractCoTTrace responseProseBetween ≠ responseProseBetween.take 25 := by
  refine ⟨by decide, by decide, by decide⟩

/-- C6 (amended): during snapshot assembly, a symbol that is not an
existing position is dropped when its open-interest data is present,
its current price is positive, and the open-interest value in millions
of USD is below 15; a position symbol whose fetch succeeds is always
retained; a fetch failure omits exactly that symbol. (The positive-price
guard is the amendment: with open interest present but a non-positive
price, the code keeps the symbol even though the open-interest value is
below 15,000,000 USD.) -/
theorem claim_c6 (symbols positionSymbols : List String)
    (fetch : String → Option MarketData) :
    (∀ s d oi, s ∉ positionSymbols → fetch s = some d → d.openInterest = some oi →
      0 < d.currentPrice → oi.latest * d.currentPrice / 1000000 < 15 →
      (s, d) ∉ fetchMarketDataFilter symbols positionSymbols fetch)
    ∧ (∀ s d, s ∈ symbols → s ∈ positionSymbols → fetch s = some d →
      (s, d) ∈ fetchMarketDataFilter symbols positionSymbols fetch)
    ∧ (∀ s d, fetch s = none →
      (s, d) ∉ fetchMarketDataFilter symbols positionSymbols fetch) := by
  refine ⟨?_, ?_, ?_⟩
  · intro s d oi hnp hf hoi hp hlow hmem
    rw [mem_fetchMarketDataFilter_iff] at hmem
    exact hmem.2.2 oi hoi ⟨hnp, hp, hlow⟩
  · intro s d hs hp hf
    rw [mem_fetchMarketDataFilter_iff]
    exact ⟨hs, hf, fun oi _ hcontra => hcontra.1 hp⟩
  · intro s d hf hmem
    rw [mem_fetchMarketDataFilter_iff] at hmem
    rw [hf] at hmem
    exact absurd hmem.2.1 (by simp)

/-- C6 counterexample: a non-position symbol whose open-interest value
is 0 USD (open interest 100, current price 0) — far below 15,000,000 —
is nevertheless retained, because the code's liquidity drop additionally
requires a positive current price. -/
theorem claim_c6_counterexample :
    fetchMarketDataFilter ["XYZUSDT"] [] fetchZeroPrice = [("XYZUSDT", marketDataZeroPrice)]
    ∧ marketDataZeroPrice.openInterest = some { latest := 100, average := 99.9 }
    ∧ (100 : ℚ) * marketDataZeroPrice.currentPrice / 1000000 < 15
    ∧ "XYZUSDT" ∉ ([] : List String) := by
  refine ⟨rfl, rfl, by norm_num [marketDataZeroPrice], by simp⟩

/-- Witness for C6: a held-position symbol whose open-interest value is
only 50 USD is retained by the filter. -/
theorem claim_c6_witness :
    ("ABCUSDT", marketDataLowOI) ∈ fetchMarketDataFilter ["ABCUSDT"] ["ABCUSDT"] fetchLowOI :=
  (claim_c6 ["ABCUSDT"] ["ABCUSDT"] fetchLowOI).2.1 "ABCUSDT" marketDataLowOI
    (by simp) (by simp) rfl

/-- C9: the LLM call makes at most 3 attempts; a first-attempt success
or non-retryable failure returns immediately with no waiting; a
retryable failure is retried after a `2 · attempt`-second sleep (2s then
4s); a non-retryable failure at any attempt is returned as is; and three
retryable failures end with an error wrapping the last failure. An error
is retryable exactly when its text contains one of EOF, timeout,
connection reset, connection refused, temporary failure, no such host
(the definition of `isRetryableError`). -/
theorem claim_c9 (apiKey : String) (callOnce : Nat → Except String String)
    (hkey : apiKey ≠ "") :
    (callWithMessages apiKey callOnce).attempts ≤ 3
    ∧ (∀ r, callOnce 1 = .ok r →
        callWithMessages apiKey callOnce = { result := .ok r, attempts := 1, waits := [] })
    ∧ (∀ e, callOnce 1 = .error e → isRetryableError e = false →
        callWithMessages apiKey callOnce = { result := .error e, attempts := 1, waits := [] })
    ∧ (∀ e r, callOnce 1 = .error e → isRetryableError e = true → callOnce 2 = .ok r →
        callWithMessages apiKey callOnce = { result := .ok r, attempts := 2, waits := [2] })
    ∧ (∀ e1 e2, callOnce 1 = .error e1 → isRetryableError e1 = true →
        callOnce 2 = .error e2 → isRetryableError e2 = false →
        callWithMessages apiKey callOnce = { result := .error e2, attempts := 2, waits := [2] })
    ∧ (∀ e1 e2 r, callOnce 1 = .error e1 → isRetryableError e1 = true →
        callOnce 2 = .error e2 → isRetryableError e2 = true → callOnce 3 = .ok r →
        callWithMessages apiKey callOnce = { result := .ok r, attempts := 3, waits := [2, 4] })
    ∧ (∀ e1 e2 e3, callOnce 1 = .error e1 → isRetryableError e1 = true →
        callOnce 2 = .error e2 → isRetryableError e2 = true →
        callOnce 3 = .error e3 → isRetryableError e3 = false →
        callWithMessages apiKey callOnce
          = { result := .error e3, attempts := 3, waits := [2, 4] })
    ∧ (∀ e1 e2 e3, callOnce 1 = .error e1 → isRetryableError e1 = true →
        callOnce 2 = .error e2 → isRetryableError e2 = true →
        callOnce 3 = .error e3 → isRetryableError e3 = true →
        callWithMessages apiKey callOnce
          = { result := .error ("重试3次后仍然失败: " ++ e3), attempts := 3, waits := [2, 4] }) := by
  have hstart : callWithMessages apiKey callOnce = callLoop callOnce 3 3 1 "" [] := by
    rw [callWithMessages, if_neg hkey]
  refine ⟨?_, ?_, ?_, ?_, ?_, ?_, ?_, ?_⟩
  · rw [hstart]
    exact le_trans (callLoop_attempts_le callOnce 3 3 1 "" []) (by norm_num)
  · intro r h1
    rw [hstart, callLoop, h1]
    rfl
  · intro e h1 hr
    rw [hstart, callLoop, h1]
    dsimp only
    rw [if_neg (by simp [hr])]
    rfl
  · intro e r h1 hr h2
    rw [hstart, callLoop, h1]
    dsimp only
    rw [if_pos (by simp [hr]), if_pos (by norm_num), callLoop, h2]
    rfl
  · intro e1 e2 h1 hr1 h2 hr2
    rw [hstart, callLoop, h1]
    dsimp only
    rw [if_pos (by simp [hr1]), if_pos (by norm_num), callLoop, h2]
    dsimp only
    rw [if_neg (by simp [hr2])]
    rfl
  · intro e1 e2 r h1 hr1 h2 hr2 h3
    rw [hstart, callLoop, h1]
    dsimp only
    rw [if_pos (by simp [hr1]), if_pos (by norm_num), callLoop, h2]
    dsimp only
    rw [if_pos (by simp [hr2]), if_pos (by norm_num), callLoop, h3]
    rfl
  · intro e1 e2 e3 h1 hr1 h2 hr2 h3 hr3
    rw [hstart, callLoop, h1]
    dsimp only
    rw [if_pos (by simp [hr1]), if_pos (by norm_num), callLoop, h2]
    dsimp only
    rw [if_pos (by simp [hr2]), if_pos (by norm_num), callLoop, h3]
    dsimp only
    rw [if_neg (by simp [hr3])]
    rfl
  · intro e1 e2 e3 h1 hr1 h2 hr2 h3 hr3
    rw [hstart, callLoop, h1]
    dsimp only
    rw [if_pos (by simp [hr1]), if_pos (by norm_num), callLoop, h2]
    dsimp only
    rw [if_pos (by simp [hr2]), if_pos (by norm_num), callLoop, h3]
    dsimp only
    rw [if_pos (by simp [hr3]), if_neg (by norm_num), callLoop]
    rfl

/-- Witness for C9: a call that always times out makes exactly 3
attempts, waits 2s then 4s, and returns the wrapped last error. -/
theorem claim_c9_witness :
    callWithMessages "key" (fun _ => .error "net timeout")
      = { result := .error ("重试3次后仍然失败: " ++ "net timeout"),
          attempts := 3, waits := [2, 4] } :=
  (claim_c9 "key" (fun _ => .error "net timeout") (by decide)).2.2.2.2.2.2.2
    "net timeout" "net timeout" "net timeout" rfl (by decide) rfl (by decide) rfl (by decide)

/-- C10: on a series of at least two klines (the previous bar satisfying
the kline invariant that its low does not exceed its high), the detector
returns WAIT unless the current bar's high exceeds the previous high,
its low undercuts the previous low, and the body ratio is at least 2.0;
when all three hold, a close below the previous low yields LONG, a close
above the previous high yields SHORT, and otherwise WAIT. -/
theorem claim_c10 (klines : List Kline) (h2 : 2 ≤ klines.length)
    (hwf : (previousBar klines).low ≤ (previousBar klines).high) :
    (¬ ((previousBar klines).high < (currentBar klines).high
        ∧ (currentBar klines).low < (previousBar klines).low
        ∧ 2 ≤ outsideBodyRatio (currentBar klines) (previousBar klines)) →
      (detectOutsideDay klines).signalType = OutsideDayWAIT)
    ∧ (((previousBar klines).high < (currentBar klines).high
        ∧ (currentBar klines).low < (previousBar klines).low
        ∧ 2 ≤ outsideBodyRatio (currentBar klines) (previousBar klines)) →
      (((currentBar klines).close < (previousBar klines).low →
          (detectOutsideDay klines).signalType = OutsideDayLONG)
        ∧ ((previousBar klines).high < (currentBar klines).close →
          (detectOutsideDay klines).signalType = OutsideDaySHORT)
        ∧ (¬ (currentBar klines).close < (previousBar klines).low →
           ¬ (previousBar klines).high < (currentBar klines).close →
          (detectOutsideDay klines).signalType = OutsideDayWAIT))) := by
  have hlen : ¬ (klines.length < 2) := by omega
  constructor
  · intro hnot
    rw [detectOutsideDay, if_neg hlen]
    dsimp only
    by_cases hob : (previousBar klines).high < (currentBar klines).high
        ∧ (currentBar klines).low < (previousBar klines).low
    · rw [if_neg (not_not.mpr hob)]
      have hr : outsideBodyRatio (currentBar klines) (previousBar klines) < 2 := by
        by_contra hge
        exact hnot ⟨hob.1, hob.2, not_lt.mp hge⟩
      rw [if_pos hr]
    · rw [if_pos hob]
  · rintro ⟨hA, hB, hC⟩
    rw [detectOutsideDay, if_neg hlen]
    dsimp only
    rw [if_neg (not_not.mpr ⟨hA, hB⟩), if_neg (not_lt.mpr hC)]
    refine ⟨?_, ?_, ?_⟩
    · intro hclose
      rw [if_pos hclose]
    · intro hclose
      have hnl : ¬ (currentBar klines).close < (previousBar klines).low := by
        intro hcontr
        exact absurd (lt_trans hclose (lt_of_lt_of_le hcontr hwf)) (lt_irrefl _)
      rw [if_neg hnl, if_pos hclose]
    · intro hnl hnh
      rw [if_neg hnl, if_neg hnh]

/-- Witness for C10: a concrete outside bar with body ratio 8 closing
below the previous low produces a LONG signal. -/
theorem claim_c10_witness :
    (detectOutsideDay klinesOutside).signalType = OutsideDayLONG := by
  refine ((claim_c10 klinesOutside (by decide)
      (by norm_num [previousBar, klinesOutside])).2 ?_).1 ?_
  · refine ⟨?_, ?_, ?_⟩ <;>
      norm_num [currentBar, previousBar, klinesOutside, outsideBodyRatio]
  · norm_num [currentBar, previousBar, klinesOutside]

/-- Witness for C4: a SOLUSDT opening decision at the altcoin cap of 5
is accepted, and its leverage lies within the bound. -/
theorem claim_c4_witness :
    1 ≤ decisionLevOk.leverage
    ∧ decisionLevOk.leverage ≤ maxLeverageFor decisionLevOk.symbol 10 5 :=
  (claim_c4 decisionLevOk 10000 10 5 0 2000 (Or.inl rfl)).1 (by
    have hcap : maxLeverageFor "SOLUSDT" 10 5 = 5 := by decide
    norm_num [decisionLevOk, validateDecision, validateBracketAndRR,
      validateRiskReward, riskRewardRatio, riskPercentOf, rewardPercentOf, entryPriceApprox,
      hcap, maxPositionValueFor, validActions])

/-- Witness for C3 at a concrete singleton batch of one valid decision. -/
theorem claim_c3_witness :
    validateDecisions [decisionWaitA] 10000 10 5 0 2000 = .ok () :=
  (claim_c3 [decisionWaitA] 10000 10 5 0 2000).mpr (by
    intro d hd
    rw [List.mem_singleton] at hd
    subst hd
    decide)

/-- Witness for C5 at a concrete bracket-free response, which yields the
synthetic `wait` fallback. -/
theorem claim_c5_witness :
    ∃ ds, extractDecisions ("no decisions here".toList) = Except.ok ds :=
  claim_c5 ("no decisions here".toList)

end Nofx
